import Mathlib

/-!
Verification development for the mikrotik-api-rs RouterOS API client.

The definitions below are a shallow embedding of the Rust source:

* `Mikrotik.Codec` embeds the wire codec (`src/api/mod.rs` `encode_len`,
  `encode_word`, `encode_sentence`; `src/api/read.rs` `read_len`,
  `read_bytes`, `read_word`).  Words are byte lists (`List Nat`, each
  element < 256).  Fallible paths return `Except`; a Rust panic
  (`copy_from_slice` length mismatch, `unreachable!`) is `Option.none`.
* `Mikrotik.De` embeds the sentence deserializer (`src/api/de/mod.rs`
  together with the serde-derived code for `Response<T>` in
  `src/api/model/mod.rs`): reply-kind dispatch, `.tag` skipping,
  `=key=value` splitting, strict decimal parsing, trap-category range
  checking and the `InterfaceMTU` sum decoding.
* `Mikrotik.Call` embeds the three call sinks (`src/api/call/`): the
  shared `InnerCall` state, push/done transitions and the consumer polls,
  including the streaming sink's double `poll_recv`.
* `Mikrotik.Listener` embeds one iteration of the reader loop
  (`src/api/listener.rs` `event_loop`): frame classification, tag
  parsing, sink lookup, push/done dispatch and the break conditions.
* Tag allocation (`next_tag`, `src/api/mod.rs`) is embedded over an
  explicit list of sampled tags, the randomised iterator itself being
  the only part abstracted (its sampling range `1..u16::MAX` appears as
  a hypothesis).
-/

namespace Mikrotik

/-- Errors of `src/api/error.rs` (`Error`). `Io` carries no payload here. -/
inductive ApiError : Type where
  | incomplete : ApiError
  | endOfStream : ApiError
  | remote (msg : String) : ApiError
  | io : ApiError
deriving DecidableEq, Repr

namespace Codec

/-- Embeds `encode_len` (src/api/mod.rs:295).  For `len <= 0x7F` the Rust
code pushes one byte.  Every other branch executes
`res.copy_from_slice(&bytes)` where `res` is the empty vector, which
panics because the slice lengths differ; those branches are `none`. -/
def encode_len (len : Nat) : Option (List Nat) :=
  if len ≤ 0x7F then some [len]
  else if len ≤ 0x3FFF then none
  else if len ≤ 0x1FFFFF then none
  else if len ≤ 0xFFFFFFF then none
  else none

/-- Embeds `encode_word` (src/api/mod.rs:320): length prefix then bytes. -/
def encode_word (w : List Nat) : Option (List Nat) :=
  (encode_len w.length).map (· ++ w)

/-- Embeds `encode_sentence` (src/api/mod.rs:328): encoded words then a
single zero byte terminating the sentence. -/
def encode_sentence : List (List Nat) → Option (List Nat)
  | [] => some [0]
  | w :: ws => do
    let hd ← encode_word w
    let tl ← encode_sentence ws
    pure (hd ++ tl)

/-- Embeds `read_len` (src/api/read.rs:11).  Result: `none` is the
`unreachable!()` panic, `Except.error .incomplete` means more bytes are
needed, `Except.ok (n, rest)` is a decoded length with the remaining
buffer.  Byte assembly mirrors `u32::from_be_bytes` on the four-byte
scratch array. -/
def read_len : List Nat → Option (Except ApiError (Nat × List Nat))
  | [] => some (.error .incomplete)
  | b :: rest =>
    if b >>> 7 = 0 then some (.ok (b, rest))
    else if b >>> 6 = 2 then
      match rest with
      | [] => some (.error .incomplete)
      | b2 :: r => some (.ok ((b &&& 0x3F) * 0x100 + b2, r))
    else if b >>> 5 = 6 then
      match rest with
      | b2 :: b3 :: r => some (.ok ((b &&& 0x1F) * 0x10000 + b2 * 0x100 + b3, r))
      | _ => some (.error .incomplete)
    else if b >>> 4 = 14 then
      match rest with
      | b2 :: b3 :: b4 :: r =>
          some (.ok ((b &&& 0x0F) * 0x1000000 + b2 * 0x10000 + b3 * 0x100 + b4, r))
      | _ => some (.error .incomplete)
    else if b = 0xF0 then
      match rest with
      | b2 :: b3 :: b4 :: b5 :: r =>
          some (.ok (b2 * 0x1000000 + b3 * 0x10000 + b4 * 0x100 + b5, r))
      | _ => some (.error .incomplete)
    else none

/-- Embeds `read_bytes` (src/api/read.rs:58): take `len` bytes or signal
`Incomplete`. -/
def read_bytes (len : Nat) (buf : List Nat) : Except ApiError (List Nat × List Nat) :=
  if len > buf.length then .error .incomplete
  else .ok (buf.take len, buf.drop len)

/-- Embeds `read_word` (src/api/read.rs:73): length prefix then payload
bytes (`from_utf8_unchecked` identifies the word with its bytes). -/
def read_word (buf : List Nat) : Option (Except ApiError (List Nat × List Nat)) :=
  match read_len buf with
  | none => none
  | some (.error e) => some (.error e)
  | some (.ok (n, rest)) =>
    match read_bytes n rest with
    | .error e => some (.error e)
    | .ok (w, rest') => some (.ok (w, rest'))

end Codec

namespace De

/-- Errors of `src/api/de/error.rs` (`DeserializerError`).  The boxed
`ParseIntError` inside `BadPrimitiveValue` is carried as its display
string; `Custom` holds the message built by serde's default error
constructors (`invalid_value`, `missing_field`, ...). -/
inductive DeserializerError : Type where
  | missingWord : DeserializerError
  | missingKey : DeserializerError
  | missingValue : DeserializerError
  | badPrimitiveValue (msg : String) : DeserializerError
  | custom (msg : String) : DeserializerError
deriving DecidableEq, Repr

/-- Serde `Unexpected` values reaching `de::Error::invalid_value` in this
code base (src/api/model/mod.rs:71 and :314). -/
inductive Unexpected : Type where
  | unsigned (n : Nat) : Unexpected
  | str (s : String) : Unexpected
deriving DecidableEq, Repr

/-- Display of `serde::de::Unexpected` for the variants used here. -/
def Unexpected.display : Unexpected → String
  | .unsigned n => "integer `" ++ toString n ++ "`"
  | .str s => "string \"" ++ s ++ "\""

/-- Serde's default `Error::invalid_value(unexp, exp)`, routed through
`DeserializerError::custom` (src/api/de/error.rs:38). -/
def invalidValue (unexp : Unexpected) (exp : String) : DeserializerError :=
  .custom ("invalid value: " ++ unexp.display ++ ", expected " ++ exp)

/-- Serde's default `Error::missing_field`. -/
def missingField (f : String) : DeserializerError :=
  .custom ("missing field `" ++ f ++ "`")

/-- Serde's default `Error::duplicate_field`. -/
def duplicateField (f : String) : DeserializerError :=
  .custom ("duplicate field `" ++ f ++ "`")

/-- Serde's default `Error::unknown_variant` for `Response`. -/
def unknownVariant (v : String) : DeserializerError :=
  .custom ("unknown variant `" ++ v ++
    "`, expected one of `Done`, `Reply`, `Trap`, `Fatal`")

/-- String prefix test over the char data, mirroring Rust
`str::starts_with` on the ASCII words of this protocol. -/
def strStartsWith (s p : String) : Bool :=
  p.data.isPrefixOf s.data

/-- Byte-index substring from `n`, mirroring Rust `str::split_at`/slicing
on the ASCII words of this protocol. -/
def strDrop (s : String) (n : Nat) : String :=
  ⟨s.data.drop n⟩

/-- Length of a word (ASCII: bytes = chars). -/
def strLen (s : String) : Nat :=
  s.data.length

/-- Embeds Rust `str::split_once('=')`: the parts before and after the
first `=`, or `none` when there is no `=`. -/
def splitOnceEq : List Char → Option (List Char × List Char)
  | [] => none
  | c :: rest =>
    if c = '=' then some ([], rest)
    else (splitOnceEq rest).map (fun p => (c :: p.1, p.2))

/-- Key part of an attribute word: `text[1..]` split at the first `=`
(src/api/de/mod.rs:66, `word_part` with `Hint::Key`). -/
def keyPart (w : String) : Except DeserializerError String :=
  match splitOnceEq (w.data.drop 1) with
  | some (k, _) => .ok ⟨k⟩
  | none => .error .missingKey

/-- Value part of an attribute word: `text[1..]` split at the first `=`
(src/api/de/mod.rs:74, `word_part` with `Hint::Value`). -/
def valuePart (w : String) : Except DeserializerError String :=
  match splitOnceEq (w.data.drop 1) with
  | some (_, v) => .ok ⟨v⟩
  | none => .error .missingValue

/-- One step of Rust `from_str_radix` on base 10: checked multiply-add
bounded by `max`, with the `ParseIntError` display strings. -/
def parseDigits (max : Nat) : List Char → Nat → Except String Nat
  | [], acc => .ok acc
  | c :: r, acc =>
    if c.isDigit then
      let acc' := acc * 10 + (c.toNat - 48)
      if acc' > max then .error "number too large to fit in target type"
      else parseDigits max r acc'
    else .error "invalid digit found in string"

/-- Embeds Rust `str::parse` for an unsigned integer type with maximum
value `max`: an optional leading `+`, then at least one decimal digit,
checked against the target range. -/
def parseUnsigned (max : Nat) (s : String) : Except String Nat :=
  let cs := match s.data with
    | '+' :: r => r
    | cs => cs
  if cs.isEmpty then .error "cannot parse integer from empty string"
  else parseDigits max cs 0

/-- Rust `str::parse::<u8>`. -/
def parseU8 (s : String) : Except String Nat := parseUnsigned 0xFF s

/-- Rust `str::parse::<u16>`. -/
def parseU16 (s : String) : Except String Nat := parseUnsigned 0xFFFF s

/-- Trap categories (src/api/model/mod.rs:36). -/
inductive TrapCategory : Type where
  | missingItemOrCommand
  | argumentValueFailure
  | commandExecutionInterrupted
  | scriptingFailure
  | generalFailure
  | apiFailure
  | ttyFailure
  | returnValue
deriving DecidableEq, Repr

/-- Embeds `TrapCategory::deserialize` (src/api/model/mod.rs:62) after the
`u8` has been parsed: values 0..=7 map to the variants (the `repr(u8)`
transmute), anything else is serde's `invalid_value` error. -/
def trapCategoryOfU8 (n : Nat) : Except DeserializerError TrapCategory :=
  if n = 0 then .ok .missingItemOrCommand
  else if n = 1 then .ok .argumentValueFailure
  else if n = 2 then .ok .commandExecutionInterrupted
  else if n = 3 then .ok .scriptingFailure
  else if n = 4 then .ok .generalFailure
  else if n = 5 then .ok .apiFailure
  else if n = 6 then .ok .ttyFailure
  else if n = 7 then .ok .returnValue
  else .error (invalidValue (.unsigned n) "a known trap category")

/-- The `Response` enum (src/api/model/mod.rs:12). -/
inductive Response (T : Type) : Type where
  | done : Response T
  | reply (v : T) : Response T
  | trap (category : Option TrapCategory) (message : String) : Response T
  | fatal : Response T
deriving DecidableEq, Repr

/-- Field loop of the serde-derived `Trap { category, message }` struct
variant driven by `StructVisitor` (src/api/de/mod.rs:319): words are read
with `.tag`-prefixed words skipped (src/api/de/mod.rs:48), the empty word
ends the map, keys come from `word_part(Key)`, the `category` value goes
through `u8` parsing then `TrapCategory::deserialize`, the `message`
value is the raw string, unknown keys are ignored, and serde's
duplicate/missing field errors apply. -/
def parseTrapFields :
    List String → Option (Option TrapCategory) → Option String →
    Except DeserializerError (Option TrapCategory × String)
  | [], _, _ => .error .missingWord
  | w :: rest, cat, msg =>
    if strStartsWith w ".tag" then parseTrapFields rest cat msg
    else if w = "" then
      match msg with
      | some m => .ok (cat.getD none, m)
      | none => .error (missingField "message")
    else
      match keyPart w with
      | .error e => .error e
      | .ok k =>
        if k = "category" then
          if cat.isSome then .error (duplicateField "category")
          else
            match valuePart w with
            | .error e => .error e
            | .ok vs =>
              match parseU8 vs with
              | .error pe => .error (.badPrimitiveValue pe)
              | .ok n =>
                match trapCategoryOfU8 n with
                | .error e => .error e
                | .ok c => parseTrapFields rest (some (some c)) msg
        else if k = "message" then
          if msg.isSome then .error (duplicateField "message")
          else
            match valuePart w with
            | .error e => .error e
            | .ok vs => parseTrapFields rest cat (some vs)
        else parseTrapFields rest cat msg

/-- Embeds `deserialize_sentence` for `Response<T>` (src/api/de/mod.rs:16
with the serde-derived enum visitor): `read_word` skips `.tag`-prefixed
words, then `deserialize_enum` (src/api/de/mod.rs:167) dispatches on the
first remaining word.  `pd` is the payload decoder invoked for the `!re`
newtype variant.  Deserializing a `!fatal` sentence reaches the
`todo!()` in `EnumVisitor::unit_variant` (src/api/de/mod.rs:385), hence
`none` (panic).  A non-`!` word is fed back as a variant name through
`into_deserializer`, so the literal variant names behave as serde's
`StrDeserializer` makes them. -/
def deserialize_sentence {T : Type}
    (pd : List String → Except DeserializerError T) :
    List String → Option (Except DeserializerError (Response T))
  | [] => some (.error .missingWord)
  | w :: rest =>
    if strStartsWith w ".tag" then deserialize_sentence pd rest
    else if w = "!done" then some (.ok .done)
    else if w = "!re" then some ((pd rest).map Response.reply)
    else if w = "!trap" then
      some ((parseTrapFields rest none none).map (fun p => Response.trap p.1 p.2))
    else if w = "!fatal" then none
    else if w = "Done" then some (.ok .done)
    else if w = "Fatal" then some (.ok .fatal)
    else if w = "Reply" then
      some (.error (.custom "invalid type: unit variant, expected newtype variant"))
    else if w = "Trap" then
      some (.error (.custom "invalid type: unit variant, expected struct variant"))
    else some (.error (unknownVariant w))

/-- Payload decoder of `()` (the `EmptyCall` payload): `deserialize_unit`
visits a unit without consuming a word (src/api/de/mod.rs:207). -/
def pdUnit : List String → Except DeserializerError Unit :=
  fun _ => .ok ()

/-- The `InterfaceChange` record (src/api/model/mod.rs:232). -/
structure InterfaceChange : Type where
  id : String
deriving DecidableEq, Repr

/-- Field loop of the serde-derived `InterfaceChange` struct: the single
field is renamed `.id`; unknown keys are ignored. -/
def parseInterfaceChangeFields :
    List String → Option String → Except DeserializerError InterfaceChange
  | [], _ => .error .missingWord
  | w :: rest, idv =>
    if strStartsWith w ".tag" then parseInterfaceChangeFields rest idv
    else if w = "" then
      match idv with
      | some i => .ok ⟨i⟩
      | none => .error (missingField ".id")
    else
      match keyPart w with
      | .error e => .error e
      | .ok k =>
        if k = ".id" then
          if idv.isSome then .error (duplicateField ".id")
          else
            match valuePart w with
            | .error e => .error e
            | .ok v => parseInterfaceChangeFields rest (some v)
        else parseInterfaceChangeFields rest idv

/-- Payload decoder of `InterfaceChange`. -/
def pdInterfaceChange : List String → Except DeserializerError InterfaceChange :=
  fun ws => parseInterfaceChangeFields ws none

/-- The `InterfaceMTU` enum (src/api/model/mod.rs:281). -/
inductive InterfaceMTU : Type where
  | auto : InterfaceMTU
  | value (n : Nat) : InterfaceMTU
deriving DecidableEq, Repr

/-- Embeds `InterfaceMTU::deserialize` (src/api/model/mod.rs:289) applied
to the borrowed attribute value string: the literal `auto` first, then
`str::parse::<u16>`, otherwise serde's `invalid_value` with the
expectation text of the source. -/
def interfaceMTUDeserialize (v : String) : Except DeserializerError InterfaceMTU :=
  if v = "auto" then .ok .auto
  else
    match parseU16 v with
    | .ok n => .ok (.value n)
    | .error _ => .error (invalidValue (.str v) "\x27auto\x27 or a valid number")

end De

namespace Call

open De

/-- The `CallError` enum (src/api/call/mod.rs:23). -/
inductive CallError : Type where
  | doneAlreadyHappened : CallError
  | doneWithoutReply : CallError
  | badLock : CallError
  | badSentence (e : DeserializerError) : CallError
deriving DecidableEq, Repr

/-- The `InnerCall<T>` state (src/api/call/mod.rs:42): the accumulator
`inner` and the `OnceCell` `done`, both as `Option`. -/
structure InnerCall (T : Type) : Type where
  inner : Option T
  doneCell : Option T
deriving DecidableEq, Repr

/-- Embeds `InnerCall::done` (src/api/call/mod.rs:55): `inner.take()`,
then `OnceCell::set` which fails (dropping the taken value) when the
cell is already filled; without a stored value the call errors with
`DoneWithoutReply`.  Returns the new state and the error, `none` being
`Ok(())`. -/
def InnerCall.doneStep {T : Type} (c : InnerCall T) :
    InnerCall T × Option CallError :=
  match c.inner with
  | some v =>
    match c.doneCell with
    | none => (⟨none, some v⟩, none)
    | some w => (⟨none, some w⟩, some .doneAlreadyHappened)
  | none => (c, some .doneWithoutReply)

/-- Embeds `InnerCall::get_done` (src/api/call/mod.rs:67):
`OnceCell::take`. -/
def InnerCall.getDone {T : Type} (c : InnerCall T) :
    Option T × InnerCall T :=
  match c.doneCell with
  | some v => (some v, ⟨c.inner, none⟩)
  | none => (none, c)

/-- Embeds `OneShotCall::push_reply` (src/api/call/one_shot.rs:34):
deserialize, then store the value only when `inner` is still empty
(first reply wins).  `none` is the panic of a `!fatal` payload inside
`deserialize_sentence`; a deserializer error leaves the state untouched
and surfaces as `BadSentence`. -/
def oneShotPush {T : Type} (pd : List String → Except DeserializerError T)
    (s : InnerCall (Response T)) (sentence : List String) :
    Option (InnerCall (Response T) × Option CallError) :=
  match deserialize_sentence pd sentence with
  | none => none
  | some (.error e) => some (s, some (.badSentence e))
  | some (.ok v) =>
    if s.inner.isNone then some (⟨some v, s.doneCell⟩, none)
    else some (s, none)

/-- Embeds `OneShotCall::done` (src/api/call/one_shot.rs:47): the lock
always succeeds in this single-threaded model, so this is
`InnerCall::done`. -/
def oneShotDone {T : Type} (s : InnerCall (Response T)) :
    InnerCall (Response T) × Option CallError :=
  s.doneStep

/-- Embeds `OneShotCall`'s `Future::poll` (src/api/call/one_shot.rs:58):
`get_done` either yields the ready value or the future stays pending. -/
def oneShotPoll {T : Type} (s : InnerCall (Response T)) :
    Option (Response T) × InnerCall (Response T) :=
  s.getDone

/-- Embeds `ArrayListCall::push_reply` (src/api/call/array.rs:38):
deserialize and append to the accumulated vector when it is still
present; the push reports `Ok` either way. -/
def arrayPush {T : Type} (pd : List String → Except DeserializerError T)
    (s : InnerCall (List (Response T))) (sentence : List String) :
    Option (InnerCall (List (Response T)) × Option CallError) :=
  match deserialize_sentence pd sentence with
  | none => none
  | some (.error e) => some (s, some (.badSentence e))
  | some (.ok v) =>
    match s.inner with
    | some vec => some (⟨some (vec ++ [v]), s.doneCell⟩, none)
    | none => some (s, none)

/-- Embeds `ArrayListCall::done` (src/api/call/array.rs:51). -/
def arrayDone {T : Type} (s : InnerCall (List (Response T))) :
    InnerCall (List (Response T)) × Option CallError :=
  s.doneStep

/-- Embeds `ArrayListCall`'s `Future::poll` (src/api/call/array.rs:65):
when the done cell is filled the vector is taken and its last element
popped (the `!done` response), otherwise the future stays pending. -/
def arrayPoll {T : Type} (s : InnerCall (List (Response T))) :
    Option (List (Response T)) × InnerCall (List (Response T)) :=
  match s.getDone with
  | (some vec, s') => (some vec.dropLast, s')
  | (none, s') => (none, s')

/-- The `InnerStreamingCall` state (src/api/call/streaming.rs:22): the
unbounded channel contents in send order and the `OnceCell<()>`. -/
structure StreamState (T : Type) : Type where
  queue : List (Response T)
  cell : Option Unit
deriving DecidableEq, Repr

/-- Embeds `StreamingCall::push_reply` (src/api/call/streaming.rs:51):
deserialize and send into the unbounded channel (the send cannot fail
while the receiver lives in the same state). -/
def streamPush {T : Type} (pd : List String → Except DeserializerError T)
    (s : StreamState T) (sentence : List String) :
    Option (StreamState T × Option CallError) :=
  match deserialize_sentence pd sentence with
  | none => none
  | some (.error e) => some (s, some (.badSentence e))
  | some (.ok v) => some (⟨s.queue ++ [v], s.cell⟩, none)

/-- Embeds `StreamingCall::done` (src/api/call/streaming.rs:70) calling
`InnerStreamingCall::done` (src/api/call/streaming.rs:29): the first
call sets the cell but the function still falls through to
`Err(CallError::BadLock)`; a second call propagates
`DoneAlreadyHappened` from `OnceCell::set`. -/
def streamDone {T : Type} (s : StreamState T) :
    StreamState T × Option CallError :=
  match s.cell with
  | none => (⟨s.queue, some ()⟩, some .badLock)
  | some _ => (s, some .doneAlreadyHappened)

/-- Poll outcome of the streaming consumer: `ready (some v)` yields an
item, `ready none` ends the stream, `pending` suspends. -/
inductive PollNext (T : Type) : Type where
  | ready (v : Option (Response T)) : PollNext T
  | pending : PollNext T
deriving DecidableEq, Repr

/-- Embeds `StreamingCall`'s `Stream::poll_next`
(src/api/call/streaming.rs:97): `poll_recv` is called a first time; a
`Done` item ends the stream; otherwise the first received item is
discarded and the result of a second `poll_recv` is returned verbatim
(the channel is never closed, so an empty queue is `Pending`). -/
def poll_next {T : Type} : List (Response T) → PollNext T × List (Response T)
  | [] => (.pending, [])
  | .done :: rest => (.ready none, rest)
  | _ :: [] => (.pending, [])
  | _ :: v2 :: rest => (.ready (some v2), rest)

/-- Items obtained by repeatedly applying `poll_next` until the stream
ends (`ready none`) or suspends with nothing left to wake it
(`pending`); mirrors a consumer iterating `StreamingCall`. -/
def drainStream {T : Type} : List (Response T) → List (Response T)
  | [] => []
  | .done :: _ => []
  | _ :: [] => []
  | _ :: v2 :: rest => v2 :: drainStream rest

end Call

namespace Model

open De

/-- Embeds `FromIterator<Response<A>> for Response<V>`
(src/api/model/mod.rs:89): the `scan` takes `Reply` values until the
first `Done`, `Fatal` or `Trap`; a scanned `Trap` is recorded and
becomes the folded result, otherwise the collected replies form a
`Reply`. -/
def foldResponses {A : Type} : List (Response A) → List A → Response (List A)
  | [], acc => .reply acc.reverse
  | .reply v :: rest, acc => foldResponses rest (v :: acc)
  | .trap c m :: _, _ => .trap c m
  | .done :: _, acc => .reply acc.reverse
  | .fatal :: _, acc => .reply acc.reverse

/-- Embeds `From<Response<T>> for Result<T, Error>`
(src/api/model/mod.rs:79): `Reply` and `Trap` convert, every other
variant is `unreachable!()` — `none` marks that panic. -/
def responseToResult {T : Type} : Response T → Option (Except ApiError T)
  | .reply v => some (.ok v)
  | .trap _ m => some (.error (.remote m))
  | .done => none
  | .fatal => none

/-- The folded array-call result, `collect::<Response<Vec<T>>>()` as used
by `interfaces` and `generic_array_call` (src/api/mod.rs:212, :262). -/
def collectResponses {A : Type} (l : List (Response A)) : Response (List A) :=
  foldResponses l []

end Model

namespace Listener

open De Call

/-- The tag table (`TagMap`, src/api/mod.rs:43) as an association list
from tag to sink state; sinks of one connection share one state type in
a given run of the model. -/
abbrev TagMap (σ : Type) : Type := List (Nat × σ)

/-- `HashMap` lookup. -/
def lookupEntry {σ : Type} (k : Nat) : TagMap σ → Option σ
  | [] => none
  | (k', v) :: m => if k' = k then some v else lookupEntry k m

/-- `HashMap::contains_key`. -/
def containsKey {σ : Type} (k : Nat) (m : TagMap σ) : Bool :=
  (lookupEntry k m).isSome

/-- `HashMap::insert` of a fresh binding (newest binding shadows). -/
def insertEntry {σ : Type} (k : Nat) (v : σ) (m : TagMap σ) : TagMap σ :=
  (k, v) :: m

/-- In-place mutation of the entry obtained by `get_mut`. -/
def updateEntry {σ : Type} (k : Nat) (v : σ) : TagMap σ → TagMap σ
  | [] => []
  | (k', v') :: m =>
    if k' = k then (k, v) :: m else (k', v') :: updateEntry k v m

/-- The boxed `dyn AsyncCall` interface (src/api/call/mod.rs:36) of a
sink stored in the tag table: `push_reply` and `done`, each returning
the mutated state and the `Result` (`none` for `Ok`); the outer
`Option` of `push` marks a panic inside deserialization. -/
structure SinkOps (σ : Type) : Type where
  push : σ → List String → Option (σ × Option CallError)
  done : σ → σ × Option CallError

/-- Frame classification of `event_loop` (src/api/listener.rs:61): the
Rust `FrameType` plus the two non-frame outcomes of the `match`. -/
inductive Classified : Type where
  | replyFrame (tagWord : String) : Classified
  | doneFrame (tagWord : String) : Classified
  | fatalFrame : Classified
  | unknownFrame : Classified
deriving DecidableEq, Repr

/-- Embeds the `match both` of `event_loop` (src/api/listener.rs:67):
`!re`/`!trap` need a second word starting with `.tag`, `!done` takes any
second word, `!fatal` breaks the loop, anything else (including a
sentence with fewer than two words) is warned about and discarded. -/
def classify (sentence : List String) : Classified :=
  match sentence.get? 0, sentence.get? 1 with
  | some w1, some w2 =>
    if (w1 = "!re" ∨ w1 = "!trap") ∧ strStartsWith w2 ".tag" then .replyFrame w2
    else if w1 = "!done" then .doneFrame w2
    else if w1 = "!fatal" then .fatalFrame
    else .unknownFrame
  | _, _ => .unknownFrame

/-- Embeds `tag.split_at(5)` followed by `id.parse::<u16>().unwrap()`
(src/api/listener.rs:84): `none` is the panic, either from slicing a
word shorter than five bytes or from the failed parse. -/
def parseTagId (tagWord : String) : Option Nat :=
  if strLen tagWord < 5 then none
  else
    match parseU16 (strDrop tagWord 5) with
    | .ok n => some n
    | .error _ => none

/-- Outcome of one `event_loop` iteration: continue looping or break out
of the loop, with the tag table as left behind. -/
inductive LoopOutcome (σ : Type) : Type where
  | next (m : TagMap σ) : LoopOutcome σ
  | exitLoop (m : TagMap σ) : LoopOutcome σ
deriving DecidableEq, Repr

/-- Embeds one iteration of `event_loop` (src/api/listener.rs:52) on an
already-read sentence: classify, parse the tag, look the sink up, push
the whole sentence into it, call `done()` for a `!done` frame; a push or
done error breaks the loop, a `!fatal` frame breaks the loop, an absent
tag or unknown frame discards the sentence.  `none` is a panic (tag
unwrap or push panic). -/
def eventLoopStep {σ : Type} (ops : SinkOps σ) (m : TagMap σ)
    (sentence : List String) : Option (LoopOutcome σ) :=
  match classify sentence with
  | .fatalFrame => some (.exitLoop m)
  | .unknownFrame => some (.next m)
  | .replyFrame tagWord =>
    match parseTagId tagWord with
    | none => none
    | some id =>
      match lookupEntry id m with
      | none => some (.next m)
      | some sink =>
        match ops.push sink sentence with
        | none => none
        | some (s', some _) => some (.exitLoop (updateEntry id s' m))
        | some (s', none) => some (.next (updateEntry id s' m))
  | .doneFrame tagWord =>
    match parseTagId tagWord with
    | none => none
    | some id =>
      match lookupEntry id m with
      | none => some (.next m)
      | some sink =>
        match ops.push sink sentence with
        | none => none
        | some (s', some _) => some (.exitLoop (updateEntry id s' m))
        | some (s', none) =>
          match ops.done s' with
          | (s'', some _) => some (.exitLoop (updateEntry id s'' m))
          | (s'', none) => some (.next (updateEntry id s'' m))

/-- Runs `event_loop` over a list of inbound sentences, stopping when an
iteration breaks; the boolean records whether the loop exited. -/
def runLoop {σ : Type} (ops : SinkOps σ) :
    TagMap σ → List (List String) → Option (TagMap σ × Bool)
  | m, [] => some (m, false)
  | m, s :: rest =>
    match eventLoopStep ops m s with
    | none => none
    | some (.exitLoop m') => some (m', true)
    | some (.next m') => runLoop ops m' rest

/-- Embeds `next_tag` (src/api/mod.rs:341) over the realised sample list
of the randomised iterator: the first sampled tag not currently in the
table, together with the unconsumed samples; `none` is the
`unreachable!()` reached when the samples run out. -/
def next_tag {σ : Type} : List Nat → TagMap σ → Option (Nat × List Nat)
  | [], _ => none
  | t :: ts, m => if containsKey t m then next_tag ts m else some (t, ts)

/-- The tag-allocating prefix of `do_call` (src/api/mod.rs:107), iterated
`n` times on one connection: each call draws a fresh tag with `next_tag`
and inserts its sink into the shared table before the next call runs. -/
def allocTags {σ : Type} (mk : σ) :
    Nat → List Nat → TagMap σ → Option (List Nat × TagMap σ)
  | 0, _, m => some ([], m)
  | n + 1, iter, m =>
    match next_tag iter m with
    | none => none
    | some (t, iter') =>
      (allocTags mk n iter' (insertEntry t mk m)).map (fun p => (t :: p.1, p.2))

end Listener

namespace Call

open De Listener

/-- An intake event delivered by the reader loop to a sink: a pushed
sentence or the terminal `done()` call. -/
inductive SinkEvent : Type where
  | pushEv (sentence : List String) : SinkEvent
  | doneEv : SinkEvent
deriving DecidableEq, Repr

/-- Applies a sequence of intake events to a one-shot sink; `none` marks
a panic inside `push_reply` deserialization. -/
def runOneShot {T : Type} (pd : List String → Except DeserializerError T) :
    List SinkEvent → InnerCall (Response T) → Option (InnerCall (Response T))
  | [], s => some s
  | .pushEv w :: evs, s =>
    match oneShotPush pd s w with
    | none => none
    | some (s', _) => runOneShot pd evs s'
  | .doneEv :: evs, s => runOneShot pd evs (oneShotDone s).1

/-- Applies a sequence of intake events to an array sink. -/
def runArray {T : Type} (pd : List String → Except DeserializerError T) :
    List SinkEvent → InnerCall (List (Response T)) →
    Option (InnerCall (List (Response T)))
  | [], s => some s
  | .pushEv w :: evs, s =>
    match arrayPush pd s w with
    | none => none
    | some (s', _) => runArray pd evs s'
  | .doneEv :: evs, s => runArray pd evs (arrayDone s).1

/-- Applies a sequence of intake events to a streaming sink. -/
def runStream {T : Type} (pd : List String → Except DeserializerError T) :
    List SinkEvent → StreamState T → Option (StreamState T)
  | [], s => some s
  | .pushEv w :: evs, s =>
    match streamPush pd s w with
    | none => none
    | some (s', _) => runStream pd evs s'
  | .doneEv :: evs, s => runStream pd evs (streamDone s).1

/-- A `OneShotCall<()>` (`EmptyCall`) behind the `AsyncCall` interface
of the tag table. -/
def oneShotOpsUnit : SinkOps (InnerCall (Response Unit)) :=
  ⟨oneShotPush pdUnit, oneShotDone⟩

/-- An `ArrayListCall<()>` behind the `AsyncCall` interface. -/
def arrayOpsUnit : SinkOps (InnerCall (List (Response Unit))) :=
  ⟨arrayPush pdUnit, arrayDone⟩

/-- A `StreamingCall<InterfaceChange>` behind the `AsyncCall`
interface. -/
def streamOpsIC : SinkOps (StreamState InterfaceChange) :=
  ⟨streamPush pdInterfaceChange, streamDone⟩

end Call

/-- Substring occurrence over char lists (used to state that an error
message does not mention a field name). -/
def listContainsSub (needle : List Char) : List Char → Bool
  | [] => needle.isEmpty
  | c :: rest => needle.isPrefixOf (c :: rest) || listContainsSub needle rest

open De Call Listener Model

/-- C1.  The claimed codec round-trip fails in the source: for any word
of length above 127 the encoder `encode_len` executes
`res.copy_from_slice(&bytes)` on the empty vector `res` and panics
(modelled as `none`), so `encode_word`/`encode_sentence` cannot produce
the two-byte (or longer) length prefixes at all.  The last two conjuncts
show the failure is precisely the encoder: a short word still encodes to
the one-byte shortest form and `read_word` decodes it back. -/
theorem c1_encode_len_panics_beyond_127 :
    Codec.encode_len 128 = none ∧
    Codec.encode_word (List.replicate 128 65) = none ∧
    Codec.encode_sentence [List.replicate 128 65] = none ∧
    Codec.encode_word [104, 105] = some [2, 104, 105] ∧
    Codec.read_word [2, 104, 105] = some (.ok ([104, 105], [])) := by
  refine ⟨rfl, ?_, ?_, rfl, rfl⟩ <;>
    simp [Codec.encode_word, Codec.encode_len, Codec.encode_sentence]

/-- C5.  The word-length decoder does not handle invalid length
patterns: a first byte in `0xF1..=0xFF` matches none of the five prefix
forms and reaches the `unreachable!()` panic (modelled as `none`)
instead of signalling a framing error. -/
theorem c5_read_len_unreachable_on_invalid_prefix :
    ∀ rest : List Nat, Codec.read_len (0xF1 :: rest) = none := by
  intro rest
  rfl

/-- C3.  Feeding the reader loop two `!re` frames and a `!done` frame
for a registered streaming sink leaves the queue holding both replies
and the `Done` marker (the loop also breaks, because
`StreamingCall::done` returns `Err(BadLock)` even on success), but
draining the consumer stream yields only the second reply: `poll_next`
calls `poll_recv` twice and discards the first received item, so each
pushed `Reply` is not delivered exactly once. -/
theorem c3_streaming_drops_first_item :
    runLoop streamOpsIC [(42, ⟨[], none⟩)]
      [["!re", ".tag=42", "=.id=*1", ""],
       ["!re", ".tag=42", "=.id=*2", ""],
       ["!done", ".tag=42", ""]] =
      some ([(42, ⟨[.reply ⟨"*1"⟩, .reply ⟨"*2"⟩, .done], some ()⟩)], true) ∧
    drainStream [.reply ⟨"*1"⟩, .reply ⟨"*2"⟩, (.done : Response InterfaceChange)] =
      [.reply ⟨"*2"⟩] ∧
    [Response.reply (⟨"*2"⟩ : InterfaceChange)] ≠
      [.reply ⟨"*1"⟩, .reply ⟨"*2"⟩] := by
  refine ⟨by rfl, by rfl, by decide⟩

/-- C2 counterexample.  A `!done` frame for tag 7, with tag 7 present
in the table, is pushed into the sink and `done()` fires, but the entry
for tag 7 is NOT removed from the tag table: the resulting map still
contains tag 7 (the reader loop has no removal call). -/
theorem c2_counterexample_done_frame_entry_retained :
    eventLoopStep oneShotOpsUnit [(7, ⟨none, none⟩)] ["!done", ".tag=7", ""] =
      some (.next [(7, ⟨none, some .done⟩)]) ∧
    lookupEntry 7 [(7, (⟨none, some .done⟩ : InnerCall (Response Unit)))] =
      some ⟨none, some .done⟩ := by
  exact ⟨by rfl, by rfl⟩

/-- C4 counterexample.  With two in-flight one-shot calls (tags 3 and
4), a `!fatal` sentence makes the reader loop exit with the tag table —
and hence every sink state — completely unchanged: no fatal error is
broadcast, and a live sink's consumer future still polls `Pending`
(`none`) afterwards, so it never resolves with the fatal message. -/
theorem c4_counterexample_fatal_not_broadcast :
    eventLoopStep oneShotOpsUnit
      [(3, ⟨none, none⟩), (4, ⟨none, none⟩)]
      ["!fatal", "connection terminated by administrator", ""] =
      some (.exitLoop [(3, ⟨none, none⟩), (4, ⟨none, none⟩)]) ∧
    oneShotPoll (⟨none, none⟩ : InnerCall (Response Unit)) =
      (none, ⟨none, none⟩) := by
  exact ⟨by rfl, by rfl⟩

/-- C4 amended.  On any `!fatal` sentence the reader loop logs and
exits, leaving the tag table (and therefore every live sink) untouched:
no fatal error is delivered to the sinks. -/
theorem c4_fatal_exits_loop_without_broadcast :
    ∀ (σ : Type) (ops : SinkOps σ) (m : TagMap σ) (msg : String)
      (rest : List String),
    eventLoopStep ops m ("!fatal" :: msg :: rest) = some (.exitLoop m) := by
  intro σ ops m msg rest
  simp [eventLoopStep, classify]

/-- Looking an id up after updating that id keeps the updated value,
provided the id was present. -/
theorem lookupEntry_updateEntry {σ : Type} (k : Nat) (v : σ) :
    ∀ (m : TagMap σ), (lookupEntry k m).isSome →
      lookupEntry k (updateEntry k v m) = some v := by
  intro m
  induction m with
  | nil => intro h; simp [lookupEntry] at h
  | cons hd tl ih =>
    intro h
    by_cases hk : hd.1 = k
    · simp [updateEntry, hk, lookupEntry]
    · simp [lookupEntry, hk] at h
      simp [updateEntry, hk, lookupEntry, ih h]

/-- Classification of a sentence whose first word is `!done`. -/
theorem classify_done_cons (t : String) (rest : List String) :
    classify ("!done" :: t :: rest) = .doneFrame t := by
  simp [classify]

/-- C2 amended.  For a sentence classified as a Done frame for tag N:
when N is present the reader loop pushes the sentence into the owning
sink and calls its `done()`, but the entry stays in the tag table (it is
updated in place, never removed); when N is absent the sentence is
discarded and the table is unchanged. -/
theorem c2_done_frame_pushes_done_and_retains_entry :
    (∀ (σ : Type) (ops : SinkOps σ) (m : TagMap σ) (tagWord : String)
       (id : Nat) (sink s' s'' : σ) (rest : List String),
       parseTagId tagWord = some id →
       lookupEntry id m = some sink →
       ops.push sink ("!done" :: tagWord :: rest) = some (s', none) →
       ops.done s' = (s'', none) →
       eventLoopStep ops m ("!done" :: tagWord :: rest) =
         some (.next (updateEntry id s'' m)) ∧
       lookupEntry id (updateEntry id s'' m) = some s'') ∧
    (∀ (σ : Type) (ops : SinkOps σ) (m : TagMap σ) (tagWord : String)
       (id : Nat) (rest : List String),
       parseTagId tagWord = some id →
       lookupEntry id m = none →
       eventLoopStep ops m ("!done" :: tagWord :: rest) = some (.next m)) := by
  constructor
  · intro σ ops m tagWord id sink s' s'' rest hparse hlook hpush hdone
    constructor
    · simp only [eventLoopStep, classify_done_cons, hparse, hlook, hpush, hdone]
    · exact lookupEntry_updateEntry id s'' m (by rw [hlook]; rfl)
  · intro σ ops m tagWord id rest hparse hlook
    simp only [eventLoopStep, classify_done_cons, hparse, hlook]

/-- C2 amended, witness: the Done frame for tag 7 of the counterexample,
run through the amended theorem. -/
theorem c2_done_frame_retains_entry_witness :
    parseTagId ".tag=7" = some 7 ∧
    (eventLoopStep oneShotOpsUnit [(7, ⟨none, none⟩)] ["!done", ".tag=7", ""] =
       some (.next (updateEntry 7 (⟨none, some .done⟩ : InnerCall (Response Unit))
         [(7, ⟨none, none⟩)])) ∧
     lookupEntry 7 (updateEntry 7 (⟨none, some .done⟩ : InnerCall (Response Unit))
       [(7, ⟨none, none⟩)]) = some ⟨none, some .done⟩) :=
  ⟨by rfl,
   c2_done_frame_pushes_done_and_retains_entry.1 _ oneShotOpsUnit
     [(7, ⟨none, none⟩)] ".tag=7" 7 ⟨none, none⟩ ⟨some .done, none⟩
     ⟨none, some .done⟩ [""] (by rfl) (by rfl) (by rfl) (by rfl)⟩

/-- C9 counterexample.  Decoding the mtu value `abc` produces serde's
`invalid_value` error whose message describes the string and the
expectation but does not name the `mtu` field anywhere, contrary to the
claim that the typed error names the field. -/
theorem c9_counterexample_error_does_not_name_field :
    interfaceMTUDeserialize "abc" =
      .error (.custom
        "invalid value: string \"abc\", expected \x27auto\x27 or a valid number") ∧
    listContainsSub "mtu".data
      ("invalid value: string \"abc\", expected \x27auto\x27 or a valid number").data
      = false := by
  exact ⟨by rfl, by decide⟩

/-- C9 amended.  Decoding `auto` yields the Auto variant, decoding a
decimal string accepted by `u16` parsing yields that numeric Value, and
any other string fails with serde's typed invalid-value error carrying
the offending string and the expectation text (the error does not name
the field). -/
theorem c9_mtu_decoding :
    interfaceMTUDeserialize "auto" = .ok .auto ∧
    interfaceMTUDeserialize "1420" = .ok (.value 1420) ∧
    (∀ (s : String) (n : Nat), s ≠ "auto" → parseU16 s = .ok n →
      interfaceMTUDeserialize s = .ok (.value n)) ∧
    (∀ (s : String) (e : String), s ≠ "auto" → parseU16 s = .error e →
      interfaceMTUDeserialize s =
        .error (invalidValue (.str s) "\x27auto\x27 or a valid number")) := by
  refine ⟨by rfl, by rfl, ?_, ?_⟩
  · intro s n hs hp
    simp [interfaceMTUDeserialize, hs, hp]
  · intro s e hs hp
    simp [interfaceMTUDeserialize, hs, hp]

/-- C9 amended, witness: the three concrete attribute values of the
claim, the failing one routed through the amended theorem. -/
theorem c9_mtu_decoding_witness :
    ("abc" : String) ≠ "auto" ∧
    parseU16 "abc" = .error "invalid digit found in string" ∧
    interfaceMTUDeserialize "abc" =
      .error (invalidValue (.str "abc") "\x27auto\x27 or a valid number") :=
  ⟨by decide, by rfl,
   c9_mtu_decoding.2.2.2 "abc" "invalid digit found in string"
     (by decide) (by rfl)⟩

/-- C10.  The source conversion from a resolved `Response<T>` to
`Result<T, Error>` maps `Reply(v)` to `Ok(v)` and `Trap` to
`Err(Remote(message))`, and panics (`unreachable!`, modelled `none`) on
`Done` and `Fatal`; a one-shot call whose only inbound frame is `!done`
resolves to `Response::Done`, so converting it panics the caller. -/
theorem c10_response_conversion_unreachable_on_done :
    (∀ (T : Type) (v : T), responseToResult (.reply v) = some (.ok v)) ∧
    (∀ (T : Type) (c : Option TrapCategory) (msg : String),
      responseToResult (Response.trap c msg : Response T) =
        some (.error (.remote msg))) ∧
    responseToResult (Response.done : Response Unit) = none ∧
    responseToResult (Response.fatal : Response Unit) = none ∧
    runLoop oneShotOpsUnit [(1, ⟨none, none⟩)] [["!done", ".tag=1", ""]] =
      some ([(1, ⟨none, some .done⟩)], false) ∧
    oneShotPoll (⟨none, some .done⟩ : InnerCall (Response Unit)) =
      (some .done, ⟨none, none⟩) := by
  exact ⟨fun _ _ => rfl, fun _ _ _ => rfl, rfl, rfl, by rfl, by rfl⟩

/-- C6.  The claimed trap scenario: the `!trap` sentence with
`=category=1` and `=message=bad argument` deserializes to a `Trap` whose
category is `ArgumentValueFailure`; running the reader loop over that
sentence and the closing `!done` for the registered array sink fills the
done cell with `[Trap, Done]`; the consumer poll pops the trailing
`Done`, the `FromIterator` fold turns the singleton into the `Trap`
response, and the `Result` conversion yields `Remote("bad argument")`.
In general any parsed `u8` category outside `0..=7` fails with serde's
typed `invalid_value` error. -/
theorem c6_trap_array_call_remote_error :
    deserialize_sentence pdUnit
      ["!trap", ".tag=9", "=category=1", "=message=bad argument", ""] =
      some (.ok (.trap (some .argumentValueFailure) "bad argument")) ∧
    runLoop arrayOpsUnit [(9, ⟨some [], none⟩)]
      [["!trap", ".tag=9", "=category=1", "=message=bad argument", ""],
       ["!done", ".tag=9", ""]] =
      some ([(9, ⟨none,
        some [.trap (some .argumentValueFailure) "bad argument", .done]⟩)],
        false) ∧
    arrayPoll (⟨none,
        some [.trap (some .argumentValueFailure) "bad argument",
          (.done : Response Unit)]⟩ : InnerCall (List (Response Unit))) =
      (some [.trap (some .argumentValueFailure) "bad argument"],
        ⟨none, none⟩) ∧
    collectResponses
        [(Response.trap (some TrapCategory.argumentValueFailure) "bad argument"
          : Response Unit)] =
      .trap (some .argumentValueFailure) "bad argument" ∧
    responseToResult
        (Response.trap (some TrapCategory.argumentValueFailure) "bad argument"
          : Response (List Unit)) =
      some (.error (.remote "bad argument")) ∧
    (∀ n : Nat, 7 < n → n ≤ 255 →
      trapCategoryOfU8 n =
        .error (invalidValue (.unsigned n) "a known trap category")) := by
  refine ⟨by rfl, by rfl, by rfl, by rfl, by rfl, ?_⟩
  intro n h1 _
  obtain ⟨m, rfl⟩ : ∃ m, n = m + 8 := ⟨n - 8, by omega⟩
  rfl

/-- C6 witness: category 8 is just outside the valid range and fails
with the typed error, via the general conjunct of the theorem. -/
theorem c6_trap_array_call_remote_error_witness :
    (7 < 8 ∧ 8 ≤ 255) ∧
    trapCategoryOfU8 8 =
      .error (invalidValue (.unsigned 8) "a known trap category") :=
  ⟨by decide,
   c6_trap_array_call_remote_error.2.2.2.2.2 8 (by decide) (by decide)⟩

/-- A one-shot push never touches the done cell. -/
theorem oneShotPush_preserves_doneCell {T : Type}
    (pd : List String → Except DeserializerError T)
    (s : InnerCall (Response T)) (w : List String) :
    ∀ s' r, oneShotPush pd s w = some (s', r) → s'.doneCell = s.doneCell := by
  intro s' r hp
  unfold oneShotPush at hp
  split at hp
  · cases hp
  · cases hp
    rfl
  · split at hp <;> (cases hp; rfl)

/-- An array push never touches the done cell. -/
theorem arrayPush_preserves_doneCell {T : Type}
    (pd : List String → Except DeserializerError T)
    (s : InnerCall (List (Response T))) (w : List String) :
    ∀ s' r, arrayPush pd s w = some (s', r) → s'.doneCell = s.doneCell := by
  intro s' r hp
  unfold arrayPush at hp
  split at hp
  · cases hp
  · cases hp
    rfl
  · split at hp <;> (cases hp; rfl)

/-- A streaming push never touches the once cell. -/
theorem streamPush_preserves_cell {T : Type}
    (pd : List String → Except DeserializerError T)
    (s : StreamState T) (w : List String) :
    ∀ s' r, streamPush pd s w = some (s', r) → s'.cell = s.cell := by
  intro s' r hp
  unfold streamPush at hp
  split at hp
  · cases hp
  · cases hp
    rfl
  · cases hp
    rfl

/-- Once the done cell is filled, `InnerCall::done` reports an error and
leaves the stored value in place. -/
theorem doneStep_after_done {T : Type} (s : InnerCall T) (v : T)
    (h : s.doneCell = some v) :
    (s.doneStep).1.doneCell = some v ∧ (s.doneStep).2.isSome := by
  unfold InnerCall.doneStep
  cases hi : s.inner <;> simp [hi, h]

/-- Once the once cell is set, `StreamingCall::done` reports
`DoneAlreadyHappened` and leaves the state unchanged. -/
theorem streamDone_after_done {T : Type} (s : StreamState T)
    (h : s.cell = some ()) :
    streamDone s = (s, some .doneAlreadyHappened) := by
  unfold streamDone
  simp [h]

/-- Any event sequence preserves a filled one-shot done cell. -/
theorem runOneShot_preserves_doneCell {T : Type}
    (pd : List String → Except DeserializerError T) :
    ∀ (evs : List SinkEvent) (s s' : InnerCall (Response T)) (v : Response T),
      runOneShot pd evs s = some s' → s.doneCell = some v →
      s'.doneCell = some v := by
  intro evs
  induction evs with
  | nil =>
    intro s s' v h hc
    cases h
    exact hc
  | cons ev evs ih =>
    intro s s' v h hc
    cases ev with
    | pushEv w =>
      unfold runOneShot at h
      split at h
      · cases h
      · rename_i s1 r heq
        exact ih s1 s' v h
          (by rw [oneShotPush_preserves_doneCell pd s w s1 r heq]; exact hc)
    | doneEv =>
      unfold runOneShot at h
      exact ih _ s' v h (doneStep_after_done s v hc).1

/-- Any event sequence preserves a filled array done cell. -/
theorem runArray_preserves_doneCell {T : Type}
    (pd : List String → Except DeserializerError T) :
    ∀ (evs : List SinkEvent) (s s' : InnerCall (List (Response T)))
      (v : List (Response T)),
      runArray pd evs s = some s' → s.doneCell = some v →
      s'.doneCell = some v := by
  intro evs
  induction evs with
  | nil =>
    intro s s' v h hc
    cases h
    exact hc
  | cons ev evs ih =>
    intro s s' v h hc
    cases ev with
    | pushEv w =>
      unfold runArray at h
      split at h
      · cases h
      · rename_i s1 r heq
        exact ih s1 s' v h
          (by rw [arrayPush_preserves_doneCell pd s w s1 r heq]; exact hc)
    | doneEv =>
      unfold runArray at h
      exact ih _ s' v h (doneStep_after_done s v hc).1

/-- Any event sequence preserves a set streaming once cell. -/
theorem runStream_preserves_cell {T : Type}
    (pd : List String → Except DeserializerError T) :
    ∀ (evs : List SinkEvent) (s s' : StreamState T),
      runStream pd evs s = some s' → s.cell = some () →
      s'.cell = some () := by
  intro evs
  induction evs with
  | nil =>
    intro s s' h hc
    cases h
    exact hc
  | cons ev evs ih =>
    intro s s' h hc
    cases ev with
    | pushEv w =>
      unfold runStream at h
      split at h
      · cases h
      · rename_i s1 r heq
        exact ih s1 s' h
          (by rw [streamPush_preserves_cell pd s w s1 r heq]; exact hc)
    | doneEv =>
      unfold runStream at h
      rw [streamDone_after_done s hc] at h
      exact ih s s' h hc

/-- C7.  Every sink reaches its done state at most once: for each of the
three sinks, once the done cell (resp. the streaming once cell) holds a
value, no further intake event sequence changes it, and a further
terminal `done()` returns an error while leaving the stored value in
place. -/
theorem c7_sinks_done_at_most_once :
    (∀ (T : Type) (pd : List String → Except DeserializerError T)
       (evs : List SinkEvent) (s s' : InnerCall (Response T)) (v : Response T),
       runOneShot pd evs s = some s' → s.doneCell = some v →
       s'.doneCell = some v ∧
       (oneShotDone s').2.isSome ∧ (oneShotDone s').1.doneCell = some v) ∧
    (∀ (T : Type) (pd : List String → Except DeserializerError T)
       (evs : List SinkEvent) (s s' : InnerCall (List (Response T)))
       (v : List (Response T)),
       runArray pd evs s = some s' → s.doneCell = some v →
       s'.doneCell = some v ∧
       (arrayDone s').2.isSome ∧ (arrayDone s').1.doneCell = some v) ∧
    (∀ (T : Type) (pd : List String → Except DeserializerError T)
       (evs : List SinkEvent) (s s' : StreamState T),
       runStream pd evs s = some s' → s.cell = some () →
       s'.cell = some () ∧
       (streamDone s').2.isSome ∧ (streamDone s').1.cell = some ()) := by
  refine ⟨?_, ?_, ?_⟩
  · intro T pd evs s s' v h hc
    have hp := runOneShot_preserves_doneCell pd evs s s' v h hc
    have hd := doneStep_after_done s' v hp
    exact ⟨hp, hd.2, hd.1⟩
  · intro T pd evs s s' v h hc
    have hp := runArray_preserves_doneCell pd evs s s' v h hc
    have hd := doneStep_after_done s' v hp
    exact ⟨hp, hd.2, hd.1⟩
  · intro T pd evs s s' h hc
    have hp := runStream_preserves_cell pd evs s s' h hc
    rw [streamDone_after_done s' hp]
    exact ⟨hp, rfl, hp⟩

/-- C7 witness: a one-shot sink that received a reply and its `done`,
then a repeated terminal event; the stored `Done` survives and the
second `done()` errors. -/
theorem c7_sinks_done_at_most_once_witness :
    runOneShot pdUnit [SinkEvent.doneEv]
      (⟨none, some .done⟩ : InnerCall (Response Unit)) =
      some ⟨none, some .done⟩ ∧
    ((⟨none, some .done⟩ : InnerCall (Response Unit)).doneCell = some .done) ∧
    ((⟨none, some .done⟩ : InnerCall (Response Unit)).doneCell = some .done ∧
     (oneShotDone (⟨none, some .done⟩ : InnerCall (Response Unit))).2.isSome ∧
     (oneShotDone (⟨none, some .done⟩ :
        InnerCall (Response Unit))).1.doneCell = some .done) :=
  ⟨by rfl, by rfl,
   c7_sinks_done_at_most_once.1 Unit pdUnit [SinkEvent.doneEv]
     ⟨none, some .done⟩ ⟨none, some .done⟩ .done (by rfl) (by rfl)⟩

/-- `next_tag` returns a tag absent from the table, drawn from the
sample list, and the unconsumed samples come from the sample list. -/
theorem next_tag_spec {σ : Type} :
    ∀ (iter : List Nat) (m : TagMap σ) (t : Nat) (iter' : List Nat),
      next_tag iter m = some (t, iter') →
      containsKey t m = false ∧ t ∈ iter ∧ ∀ x ∈ iter', x ∈ iter := by
  intro iter
  induction iter with
  | nil =>
    intro m t iter' h
    cases h
  | cons a as ih =>
    intro m t iter' h
    unfold next_tag at h
    by_cases hc : containsKey a m = true
    · rw [if_pos hc] at h
      obtain ⟨h1, h2, h3⟩ := ih m t iter' h
      exact ⟨h1, List.mem_cons_of_mem a h2,
        fun x hx => List.mem_cons_of_mem a (h3 x hx)⟩
    · rw [if_neg hc] at h
      cases h
      exact ⟨Bool.not_eq_true _ ▸ eq_false_of_ne_true hc, List.mem_cons_self a as,
        fun x hx => List.mem_cons_of_mem a hx⟩

/-- Key membership after inserting a binding. -/
theorem containsKey_insertEntry {σ : Type} (x k : Nat) (v : σ) (m : TagMap σ) :
    containsKey x (insertEntry k v m) = false ↔
      k ≠ x ∧ containsKey x m = false := by
  by_cases h : k = x <;>
    simp [containsKey, insertEntry, lookupEntry, h]

/-- Tags allocated by repeated `do_call` are mutually distinct, drawn
from the sample list, and absent from the table they started from. -/
theorem allocTags_spec {σ : Type} (mk : σ) :
    ∀ (n : Nat) (iter : List Nat) (m : TagMap σ) (ts : List Nat)
      (m' : TagMap σ),
      allocTags mk n iter m = some (ts, m') →
      ts.Nodup ∧ (∀ t ∈ ts, t ∈ iter) ∧
      (∀ t ∈ ts, containsKey t m = false) := by
  intro n
  induction n with
  | zero =>
    intro iter m ts m' h
    cases h
    simp
  | succ k ih =>
    intro iter m ts m' h
    unfold allocTags at h
    cases hnt : next_tag iter m with
    | none =>
      rw [hnt] at h
      cases h
    | some p =>
      obtain ⟨t, iter'⟩ := p
      rw [hnt] at h
      dsimp only at h
      cases hrec : allocTags mk k iter' (insertEntry t mk m) with
      | none =>
        rw [hrec] at h
        cases h
      | some q =>
        obtain ⟨ts0, m0⟩ := q
        rw [hrec] at h
        dsimp only [Option.map] at h
        obtain ⟨rfl, rfl⟩ : t :: ts0 = ts ∧ m0 = m' := by
          simpa [Prod.ext_iff] using h
        obtain ⟨hnd, hmem, habs⟩ := ih iter' (insertEntry t mk m) ts0 m0 hrec
        obtain ⟨hfree, htin, hsub⟩ := next_tag_spec iter m t iter' hnt
        have hne : ∀ x ∈ ts0, t ≠ x ∧ containsKey x m = false :=
          fun x hx => (containsKey_insertEntry x t mk m).mp (habs x hx)
        refine ⟨List.nodup_cons.mpr ⟨fun hmem0 => (hne t hmem0).1 rfl, hnd⟩,
          ?_, ?_⟩
        · intro x hx
          rcases List.mem_cons.mp hx with h0 | h0
          · exact h0 ▸ htin
          · exact hsub x (hmem x h0)
        · intro x hx
          rcases List.mem_cons.mp hx with h0 | h0
          · exact h0 ▸ hfree
          · exact (hne x h0).2

/-- C8.  `next_tag` never returns a tag currently present in the table,
and all tags drawn by repeated `do_call` allocations are pairwise
distinct and, when the randomised sampler only emits values in
`1..=65534` (which `Uniform::from(1..u16::MAX)` guarantees), all lie in
`1..=65534`. -/
theorem c8_tags_distinct_in_range :
    (∀ (σ : Type) (iter : List Nat) (m : TagMap σ) (t : Nat)
       (iter' : List Nat),
       next_tag iter m = some (t, iter') →
       containsKey t m = false ∧ t ∈ iter) ∧
    (∀ (σ : Type) (mk : σ) (n : Nat) (iter : List Nat) (m : TagMap σ)
       (ts : List Nat) (m' : TagMap σ),
       (∀ t ∈ iter, 1 ≤ t ∧ t ≤ 65534) →
       allocTags mk n iter m = some (ts, m') →
       ts.Nodup ∧ (∀ t ∈ ts, 1 ≤ t ∧ t ≤ 65534) ∧
       (∀ t ∈ ts, containsKey t m = false)) := by
  constructor
  · intro σ iter m t iter' h
    obtain ⟨h1, h2, _⟩ := next_tag_spec iter m t iter' h
    exact ⟨h1, h2⟩
  · intro σ mk n iter m ts m' hrange h
    obtain ⟨hnd, hmem, habs⟩ := allocTags_spec mk n iter m ts m' h
    exact ⟨hnd, fun t ht => hrange t (hmem t ht), habs⟩

/-- C8 witness: two allocations over the sample list `[5, 9, 11]` with
tag 5 already in flight yield the distinct in-range tags 9 and 11. -/
theorem c8_tags_distinct_in_range_witness :
    (∀ t ∈ [5, 9, 11], 1 ≤ t ∧ t ≤ 65534) ∧
    ([9, 11].Nodup ∧ (∀ t ∈ [9, 11], 1 ≤ t ∧ t ≤ 65534) ∧
      (∀ t ∈ [9, 11], containsKey t [(5, ())] = false)) ∧
    (containsKey 9 [(5, ())] = false ∧ 9 ∈ [5, 9, 11]) :=
  ⟨by decide,
   c8_tags_distinct_in_range.2 Unit () 2 [5, 9, 11] [(5, ())] [9, 11]
     [(11, ()), (9, ()), (5, ())] (by decide) (by rfl),
   c8_tags_distinct_in_range.1 Unit [5, 9, 11] [(5, ())] 9 [11] (by rfl)⟩

end Mikrotik
